import Mathlib

/-!
Shallow embedding of gabber (src/gabber/client.py) and verification of its
specification claims.

The embedding models the pure control flow of the client: each HTTP endpoint
becomes a function parameter (the "upstream model"), exceptions become
explicit error values, and unbounded `while` loops take a fuel parameter
(every theorem either holds for all fuel or states the fuel it needs).
-/

namespace Gabber

/-! ## Posts and the statuses pagination (`Client.pull_statuses`) -/

/-- A post, reduced to the two fields `pull_statuses` inspects:
`post["id"]` and the date parsed from `post["created_at"]`
(dates are modelled as integers, ordered as dates are). -/
structure Post where
  id : Nat
  created : Int
  deriving DecidableEq, Repr

/-- The three ways one iteration of the statuses loop aborts with `break`
after a request: `json.JSONDecodeError`, any other exception, and an
API-reported error object (`"error" in result`). -/
inductive PageErr
  | jsonDecode
  | misc
  | apiError
  deriving DecidableEq, Repr

/-- The statuses endpoint, as a function from the `max_id` pagination cursor
(`none` on the first request, when `params` is empty) to a decoded page or an
error. -/
abbrev StatusesApi := Option Nat → Except PageErr (List Post)

/-- Stable insertion of a post into a list sorted by ascending id: `p` goes
in front of the first element whose id is not smaller.  Elements equal in key
that were originally earlier stay earlier, matching Python's stable sort. -/
def insertById (p : Post) : List Post → List Post
  | [] => [p]
  | q :: qs => if q.id < p.id then q :: insertById p qs else p :: q :: qs

/-- `sorted(result, key=lambda k: k["id"])`: a stable sort by ascending post
id (Python's `sorted` is stable; any stable sort by the same key computes the
same list, so insertion sort is used to keep the definition structurally
recursive). -/
def sortPosts : List Post → List Post
  | [] => []
  | p :: ps => insertById p (sortPosts ps)

/-- `created_after and X < created_after` for a single post date `X`:
false when no cutoff was given (`created_after` is `None`). -/
def tooOld (createdAfter : Option Int) (p : Post) : Bool :=
  match createdAfter with
  | none => false
  | some d => decide (p.created < d)

/-- The `while True` loop of `Client.pull_statuses`.  Returns the accumulated
`all_posts` list together with the trace of `max_id` cursors actually sent,
one per performed request, in order.  Each iteration:
request the page (decode error, misc exception and API error object all
`break`), `break` on an empty page, sort the page by ascending id, set
`params["max_id"]` to the minimum id `posts[0]["id"]`, `break` before adding
anything if the maximum-id post (`posts[-1]`, named `most_recent_date` in the
source) predates the cutoff, otherwise append the posts of the page that do
not individually predate the cutoff and continue. -/
def pull_statuses_loop (api : StatusesApi) (createdAfter : Option Int) :
    Nat → Option Nat → List Post → List Post × List (Option Nat)
  | 0, _, all_posts => (all_posts, [])
  | fuel+1, cursor, all_posts =>
    match api cursor with
    | .error _ => (all_posts, [cursor])
    | .ok result =>
      if result.isEmpty then (all_posts, [cursor])
      else
        let posts := sortPosts result
        match posts.head?, posts.getLast? with
        | some p0, some plast =>
          if tooOld createdAfter plast then (all_posts, [cursor])
          else
            let next := pull_statuses_loop api createdAfter fuel (some p0.id)
              (all_posts ++ posts.filter (fun p => !tooOld createdAfter p))
            (next.1, cursor :: next.2)
        | _, _ => (all_posts, [cursor])

/-- `Client.pull_statuses`: run the loop from an empty `params` dict
(no `max_id`) and an empty `all_posts`. -/
def pull_statuses (api : StatusesApi) (createdAfter : Option Int) (fuel : Nat) :
    List Post × List (Option Nat) :=
  pull_statuses_loop api createdAfter fuel none []

/-- The ids served by the upstream for one request (empty on error). -/
def pageIds (api : StatusesApi) (cursor : Option Nat) : List Nat :=
  match api cursor with
  | .error _ => []
  | .ok result => result.map Post.id

/-- What one request at cursor `r` contributes to `all_posts`: nothing on
error, empty page or cutoff `break`; otherwise the page sorted by ascending
id with individually-too-old posts removed. -/
def pageContrib (api : StatusesApi) (createdAfter : Option Int)
    (cursor : Option Nat) : List Post :=
  match api cursor with
  | .error _ => []
  | .ok result =>
    if result.isEmpty then []
    else
      let posts := sortPosts result
      match posts.getLast? with
      | some plast =>
        if tooOld createdAfter plast then []
        else posts.filter (fun p => !tooOld createdAfter p)
      | none => []

/-- The page at cursor `r` decodes, is non-empty, and its maximum-id post
(the one the source calls `most_recent_date`) is dated `>= d`: the exact
condition under which the loop goes on to a further request. -/
def pageNewestGE (api : StatusesApi) (d : Int) (cursor : Option Nat) : Bool :=
  match api cursor with
  | .error _ => false
  | .ok result =>
    match (sortPosts result).getLast? with
    | some plast => decide (d ≤ plast.created)
    | none => false

/-! ## Entity fetch (`Client.pull_user`, `Client.pull_group`) -/

/-- The two exception paths of an entity fetch: `json.JSONDecodeError` and
any other exception. -/
inductive PullErr
  | jsonDecode
  | misc
  deriving DecidableEq, Repr

/-- A decoded entity record: an insertion-ordered string-keyed dictionary
(values reduced to strings; only presence and equality of values matter). -/
abbrev Doc := List (String × String)

/-- Python dict assignment `d[k] = v`: replace in place if the key exists,
append otherwise (insertion order preserved). -/
def dictSet : Doc → String → String → Doc
  | [], k, v => [(k, v)]
  | (k', v') :: rest, k, v =>
    if k' = k then (k, v) :: rest else (k', v') :: dictSet rest k v

/-- `Client.pull_user`: return `None` on a decode error or any other
exception, `None` when the API reports `"Record not found"`, otherwise the
record with `result["_pulled"]` set to the capture timestamp. -/
def pull_user (api : Nat → Except PullErr Doc) (now : String) (id : Nat) :
    Option Doc :=
  match api id with
  | .error _ => none
  | .ok result =>
    if List.lookup "error" result = some "Record not found" then none
    else some (dictSet result "_pulled" now)

/-- `Client.pull_group`: identical logic to `pull_user` against the groups
endpoint. -/
def pull_group (api : Nat → Except PullErr Doc) (now : String) (id : Nat) :
    Option Doc :=
  match api id with
  | .error _ => none
  | .ok result =>
    if List.lookup "error" result = some "Record not found" then none
    else some (dictSet result "_pulled" now)

/-! ## Session refresh counter (`Client._get`) -/

def REQUESTS_PER_SESSION_REFRESH : Nat := 1000

/-- The session-refresh bookkeeping of one `Client._get` call, acting on the
state (requests-since-refresh counter, number of refreshes performed so far).
With `skip_sess_refresh=True` (the login request) the state is untouched;
otherwise the counter is incremented and, when it exceeds
`REQUESTS_PER_SESSION_REFRESH`, a refresh happens and the counter resets to
zero.  (The refresh itself re-runs login, whose internal request passes
`skip_sess_refresh=True`, hence no further state change.) -/
def refreshStep (skip_sess_refresh : Bool) (st : Nat × Nat) : Nat × Nat :=
  if skip_sess_refresh then st
  else
    let c := st.1 + 1
    if REQUESTS_PER_SESSION_REFRESH < c then (0, st.2 + 1) else (c, st.2)

/-- `n` successive non-exempt `_get` calls. -/
def iterateGets : Nat → Nat × Nat → Nat × Nat
  | 0, st => st
  | n+1, st => refreshStep false (iterateGets n st)

/-! ## Login (`Client.get_sess_cookie`) -/

/-- The sign-in page: `csrfMeta` is the `content` of the
`meta[name="csrf-token"]` tag, or `none` when the page has no such tag
(in which case BeautifulSoup's `find` returns `None`). -/
structure SignInPage where
  csrfMeta : Option String
  deriving DecidableEq, Repr

/-- The outside world seen by `get_sess_cookie`: the GET of the sign-in page
(`error` when `raise_for_status` raises) and the POST of the credentials
(`error` when its `raise_for_status` raises, otherwise the value of the
`_session_id` response cookie when present). -/
structure LoginEnv where
  signInPage : Except Unit SignInPage
  postResp : Except Unit (Option String)

/-- How a call to `get_sess_cookie` ends. -/
inductive SessResult
  | cookies (sessionId : String)  -- returns the session cookies
  | noneRes                       -- one of the `return None` paths
  | typeErrorNoneSubscript        -- unhandled TypeError from subscripting None
  | valueErrorInvalidCreds        -- raise ValueError(invalid credentials)
  deriving DecidableEq, Repr

/-- `Client.get_sess_cookie`, paired with whether the POST request was
issued.  Control flow of the source: a failing GET is caught
(`except HTTPError`) and yields `return None`; a page without the CSRF meta
tag makes `login_page.find(...)` return `None` and the subscript
`[something]` on it raise an uncaught TypeError before any POST; an empty
CSRF token hits `if not csrf: return None`; a failing POST is caught and
yields `return None`; a POST response without a (non-empty) `_session_id`
cookie raises `ValueError`; otherwise the cookies are returned. -/
def get_sess_cookie (env : LoginEnv) : SessResult × Bool :=
  match env.signInPage with
  | .error _ => (.noneRes, false)
  | .ok page =>
    match page.csrfMeta with
    | none => (.typeErrorNoneSubscript, false)
    | some csrf =>
      if csrf = "" then (.noneRes, false)
      else
        match env.postResp with
        | .error _ => (.noneRes, true)
        | .ok none => (.valueErrorInvalidCreds, true)
        | .ok (some sid) =>
          if sid = "" then (.valueErrorInvalidCreds, true)
          else (.cookies sid, true)

/-! ## Latest-user search (`Client.find_latest_user`) -/

/-- A user, reduced to the fields `find_latest_user` inspects: `user["id"]`
and the timestamp parsed from `user["created_at"]` (seconds, UTC). -/
structure GabUser where
  id : Int
  created_at : Int
  deriving DecidableEq, Repr

/-- `round(upper * 1.2)` in exact arithmetic: `6*u/5` rounded half-to-even.
The fractional part of `6*u/5` is one of 0, .2, .4, .6, .8 — never .5 — so
this equals `(6*u + 2)` floor-divided by 5.  (CPython computes `u * 1.2` in
binary floating point; for every magnitude this program reaches the float
result rounds to the same integer.) -/
def grow (u : Int) : Int := (6 * u + 2).fdiv 5

/-- The exponential probe: `while self.pull_user(upper) != None:
upper = round(upper * 1.2)`.  Returns the first probed id at which no user
exists, or `none` when the fuel runs out first. -/
def probeUpper (api : Int → Option GabUser) : Nat → Int → Option Int
  | 0, upper => if (api upper).isSome then none else some upper
  | fuel+1, upper =>
    if (api upper).isSome then probeUpper api fuel (grow upper)
    else some upper

/-- The binary-search loop `while lower_bound <= upper_bound`, carrying the
`user` variable (initially `None`).  `middle` is Python floor division
`(lower + upper) // 2`; an existing probe records the candidate and moves
`lower` past it, a missing one moves `upper` below it.  Returns `some best`
when the loop exits normally, `none` when the fuel runs out mid-loop. -/
def bsearchLoop (api : Int → Option GabUser) :
    Nat → Int → Int → Option GabUser → Option (Option GabUser)
  | 0, lower, upper, best => if lower ≤ upper then none else some best
  | fuel+1, lower, upper, best =>
    if lower ≤ upper then
      let middle := (lower + upper).fdiv 2
      let middle_user := api middle
      let best' := if middle_user.isSome then middle_user else best
      if middle_user.isSome then bsearchLoop api fuel (middle + 1) upper best'
      else bsearchLoop api fuel lower (middle - 1) best'
    else some best

/-- The search portion of `find_latest_user` (everything before the
staleness validation): exponential probe from the initial lower bound, then
binary search on `[lower_bound, upper_bound]`.  The outer `Option` is fuel
exhaustion; the inner `Option GabUser` is the final value of the `user`
variable. -/
def search_phase (api : Int → Option GabUser) (probeFuel searchFuel : Nat)
    (lower_bound : Int) : Option (Option GabUser) :=
  match probeUpper api probeFuel lower_bound with
  | none => none
  | some upper => bsearchLoop api searchFuel lower_bound upper none

/-- How `find_latest_user` can fail. -/
inductive FindErr
  | fuelExhausted           -- modelling artifact: a loop ran out of fuel
  | typeErrorNoneSubscript  -- user is None and user["created_at"] raises
  | staleness               -- RuntimeError: not plausibly the most recent
  deriving DecidableEq, Repr

/-- `timedelta(minutes=30)` in seconds. -/
def THIRTY_MINUTES : Int := 1800

/-- `Client.find_latest_user` with the initial lower bound as a parameter:
search phase, then `user["created_at"]` (an uncaught TypeError when the
search recorded no user), then
`raise RuntimeError` when `datetime.utcnow() - created_at` exceeds thirty
minutes, else the user is returned. -/
def find_latest_user (api : Int → Option GabUser) (probeFuel searchFuel : Nat)
    (lower_bound : Int) (now : Int) : Except FindErr GabUser :=
  match search_phase api probeFuel searchFuel lower_bound with
  | none => .error .fuelExhausted
  | some none => .error .typeErrorNoneSubscript
  | some (some user) =>
    if THIRTY_MINUTES < now - user.created_at then .error .staleness
    else .ok user

/-- `Client.find_latest_user` as in the source, with its hardcoded
`lower_bound = 5318531`. -/
def find_latest_user_main (api : Int → Option GabUser)
    (probeFuel searchFuel : Nat) (now : Int) : Except FindErr GabUser :=
  find_latest_user api probeFuel searchFuel 5318531 now

/-! ## The range walks (`posts` and `groups` commands) -/

/-- `range(first, int(last) + 1)` as a list. -/
def idRange (first last : Nat) : List Nat :=
  (List.range (last + 1 - first)).map (· + first)

/-- `futures.wait(items, return_when=FIRST_COMPLETED)` followed by removal
of the completed futures: the scheduler's choice of which in-flight tasks
complete is an oracle `mask` on positions; since at least one task always
completes eventually, an empty selection is resolved to the first task.
Returns (completed, still in flight). -/
def splitDone (mask : Nat → Bool) (l : List Nat) : List Nat × List Nat :=
  let done := (l.enum.filter (fun p => mask p.1)).map Prod.snd
  if done.isEmpty then (l.take 1, l.drop 1)
  else (done, (l.enum.filter (fun p => !mask p.1)).map Prod.snd)

/-- State of a walk: ids not yet submitted (the tail of the range iterator),
ids of in-flight tasks (`f`), ids whose task results were consumed. -/
structure WalkState where
  pending : List Nat
  inflight : List Nat
  completed : List Nat
  deriving DecidableEq, Repr

/-- The `while len(f) > 0` loop of the `posts` command: wait for a non-empty
set of completions, consume their results, then submit one new task per
completion from the remaining range (`f.append(ex.submit(..., next(users),
...))`, stopping silently at `StopIteration`). -/
def walkLoop (sched : Nat → Nat → Bool) : Nat → Nat → WalkState → WalkState
  | 0, _, s => s
  | fuel+1, step, s =>
    if s.inflight.isEmpty then s
    else
      let split := splitDone (sched step) s.inflight
      walkLoop sched fuel (step + 1)
        { pending := s.pending.drop split.1.length
          inflight := split.2 ++ s.pending.take split.1.length
          completed := s.completed ++ split.1 }

/-- The `posts` command's walk over user ids `[first, last]`: submit the
first `threads * 2` ids, then run the loop. -/
def posts_walk (threads first last : Nat) (sched : Nat → Nat → Bool)
    (fuel : Nat) : WalkState :=
  let ids := idRange first last
  walkLoop sched fuel 0
    { pending := ids.drop (threads * 2)
      inflight := ids.take (threads * 2)
      completed := [] }

/-- The `groups` command's walk over group ids `[first, last]`.  Its
re-scheduling line reads `futures.append(...)` — an attribute lookup on the
imported `concurrent.futures` module, not on the local list `f` — so the
first pass through the `for _ in range(len(done))` body raises
AttributeError (before `ex.submit` or `next(groups)` is evaluated), which
the `except StopIteration` clause does not catch.  Hence: if no task was
ever in flight the loop body never runs, otherwise the walk consumes exactly
one completion wave and aborts.  Returns the error message (if any) and the
state reached. -/
def groups_walk (threads first last : Nat) (sched : Nat → Nat → Bool) :
    Option String × WalkState :=
  let ids := idRange first last
  let s : WalkState :=
    { pending := ids.drop (threads * 2)
      inflight := ids.take (threads * 2)
      completed := [] }
  if s.inflight.isEmpty then (none, s)
  else
    let split := splitDone (sched 0) s.inflight
    (some "AttributeError: futures module has no append",
      { pending := s.pending, inflight := split.2, completed := split.1 })

/-! ## Concrete upstream models used to evaluate the claims on explicit inputs -/

/-- Statuses upstream for the `created_after` cutoff: the first page holds a
post dated 5 (id 11) and a post dated 0 (id 10); the page below cursor 10
holds a post dated 4 (id 5); everything further is empty. -/
def cex2Api : StatusesApi
  | none => .ok [⟨11, 5⟩, ⟨10, 0⟩]
  | some 10 => .ok [⟨5, 4⟩]
  | some _ => .ok []

/-- Statuses upstream serving one page in descending id (and date) order. -/
def cex8Api : StatusesApi
  | none => .ok [⟨2, 10⟩, ⟨1, 9⟩]
  | some _ => .ok []

/-- Statuses upstream honouring the `max_id` contract: every page below a
cursor holds only ids strictly below it. -/
def wit9Api : StatusesApi
  | none => .ok [⟨6, 1⟩, ⟨5, 1⟩]
  | some c => .ok (if c = 5 then [⟨3, 1⟩] else [])

/-- Users upstream where exactly the ids `≤ K` exist, all created at time 0. -/
def stairApi (K : Int) : Int → Option GabUser := fun i =>
  if i ≤ K then some ⟨i, 0⟩ else none

/-- Users upstream with no user at all. -/
def noneApi : Int → Option GabUser := fun _ => none

/-- Accounts endpoint: id 1 exists, id 2 is "Record not found", everything
else raises. -/
def wit5Api : Nat → Except PullErr Doc
  | 1 => .ok [("username", "alice")]
  | 2 => .ok [("error", "Record not found")]
  | _ => .error .misc

/-- A sign-in page without the CSRF meta tag (the POST outcome is
irrelevant on this path). -/
def cex6Env : LoginEnv := ⟨.ok ⟨none⟩, .ok (some "sid")⟩

/-- A sign-in page with a CSRF token whose login POST comes back without a
session cookie. -/
def wit6Env : LoginEnv := ⟨.ok ⟨some "tok"⟩, .ok none⟩

end Gabber

namespace Gabber

/-! ## Properties of the stable sort -/

theorem insertById_perm (p : Post) : ∀ l : List Post, (insertById p l).Perm (p :: l)
  | [] => List.Perm.refl _
  | q :: qs => by
    simp only [insertById]
    split
    · exact ((insertById_perm p qs).cons q).trans (List.Perm.swap p q qs)
    · exact List.Perm.refl _

theorem sortPosts_perm : ∀ l : List Post, (sortPosts l).Perm l
  | [] => List.Perm.refl _
  | p :: ps => (insertById_perm p (sortPosts ps)).trans ((sortPosts_perm ps).cons p)

theorem mem_sortPosts {l : List Post} {x : Post} : x ∈ sortPosts l ↔ x ∈ l :=
  (sortPosts_perm l).mem_iff

theorem insertById_sorted (p : Post) :
    ∀ l : List Post, l.Pairwise (fun a b : Post => a.id ≤ b.id) →
      (insertById p l).Pairwise (fun a b : Post => a.id ≤ b.id)
  | [], _ => by simp [insertById]
  | q :: qs, h => by
    rcases List.pairwise_cons.mp h with ⟨hq, hqs⟩
    simp only [insertById]
    split
    · rename_i hlt
      refine List.pairwise_cons.mpr ⟨?_, insertById_sorted p qs hqs⟩
      intro x hx
      rcases List.mem_cons.mp ((insertById_perm p qs).mem_iff.mp hx) with rfl | hxq
      · omega
      · exact hq x hxq
    · rename_i hge
      refine List.pairwise_cons.mpr ⟨?_, h⟩
      intro x hx
      rcases List.mem_cons.mp hx with rfl | hxq
      · omega
      · exact le_trans (by omega) (hq x hxq)

theorem sortPosts_sorted :
    ∀ l : List Post, (sortPosts l).Pairwise (fun a b : Post => a.id ≤ b.id)
  | [] => by simp [sortPosts]
  | p :: ps => insertById_sorted p _ (sortPosts_sorted ps)

theorem sortPosts_eq_nil_iff {l : List Post} : sortPosts l = [] ↔ l = [] := by
  rw [← List.length_eq_zero, (sortPosts_perm l).length_eq, List.length_eq_zero]

theorem sortPosts_head_min {l : List Post} {p0 : Post}
    (h : (sortPosts l).head? = some p0) : ∀ q ∈ l, p0.id ≤ q.id := by
  intro q hq
  have hs := sortPosts_sorted l
  have hmem : q ∈ sortPosts l := mem_sortPosts.mpr hq
  cases hsl : sortPosts l with
  | nil => rw [hsl] at h; simp at h
  | cons a t =>
    rw [hsl] at h hmem hs
    have ha : a = p0 := by simpa using h
    subst ha
    rcases List.mem_cons.mp hmem with rfl | hqt
    · exact le_refl _
    · exact (List.pairwise_cons.mp hs).1 q hqt

/-! ## Step lemmas for the statuses loop -/

theorem pull_statuses_loop_error {api : StatusesApi} {ca : Option Int}
    {cursor : Option Nat} {e : PageErr} (fuel : Nat) (acc : List Post)
    (h : api cursor = .error e) :
    pull_statuses_loop api ca (fuel + 1) cursor acc = (acc, [cursor]) := by
  simp [pull_statuses_loop, h]

theorem pull_statuses_loop_emptyPage {api : StatusesApi} {ca : Option Int}
    {cursor : Option Nat} (fuel : Nat) (acc : List Post)
    (h : api cursor = .ok []) :
    pull_statuses_loop api ca (fuel + 1) cursor acc = (acc, [cursor]) := by
  simp [pull_statuses_loop, h]

theorem pull_statuses_loop_ok {api : StatusesApi} {ca : Option Int}
    {cursor : Option Nat} {result : List Post} {p0 plast : Post}
    (fuel : Nat) (acc : List Post)
    (h : api cursor = .ok result) (hh : (sortPosts result).head? = some p0)
    (hl : (sortPosts result).getLast? = some plast) :
    pull_statuses_loop api ca (fuel + 1) cursor acc =
      if tooOld ca plast then (acc, [cursor])
      else
        ((pull_statuses_loop api ca fuel (some p0.id)
            (acc ++ (sortPosts result).filter (fun p => !tooOld ca p))).1,
          cursor :: (pull_statuses_loop api ca fuel (some p0.id)
            (acc ++ (sortPosts result).filter (fun p => !tooOld ca p))).2) := by
  have hres : result ≠ [] := by
    intro he
    subst he
    simp [sortPosts] at hh
  simp only [pull_statuses_loop, h, hh, hl]
  rw [if_neg (by simpa [List.isEmpty_iff] using hres)]

end Gabber

namespace Gabber

/-! ## The createdAfter cutoff (claim C2) -/

theorem pull_statuses_loop_no_old (api : StatusesApi) (d : Int) :
    ∀ (fuel : Nat) (cursor : Option Nat) (acc : List Post),
      (∀ p ∈ acc, d ≤ p.created) →
      ∀ p ∈ (pull_statuses_loop api (some d) fuel cursor acc).1, d ≤ p.created
  | 0, cursor, acc, hacc => by simpa [pull_statuses_loop] using hacc
  | fuel+1, cursor, acc, hacc => by
    cases hapi : api cursor with
    | error e =>
      rw [pull_statuses_loop_error fuel acc hapi]
      simpa using hacc
    | ok result =>
      by_cases hres : result = []
      · subst hres
        rw [pull_statuses_loop_emptyPage fuel acc hapi]
        simpa using hacc
      · have hsn : sortPosts result ≠ [] := fun h => hres (sortPosts_eq_nil_iff.mp h)
        obtain ⟨p0, t, hsl⟩ : ∃ p0 t, sortPosts result = p0 :: t := by
          cases hsl : sortPosts result with
          | nil => exact absurd hsl hsn
          | cons a t => exact ⟨a, t, rfl⟩
        have hh : (sortPosts result).head? = some p0 := by rw [hsl]; rfl
        obtain ⟨plast, hl⟩ : ∃ plast, (sortPosts result).getLast? = some plast := by
          rw [hsl]
          exact ⟨(p0 :: t).getLast (by simp), List.getLast?_eq_getLast _ (by simp)⟩
        rw [pull_statuses_loop_ok fuel acc hapi hh hl]
        split
        · simpa using hacc
        · have hacc' : ∀ p ∈ acc ++ (sortPosts result).filter
              (fun p => !tooOld (some d) p), d ≤ p.created := by
            intro p hp
            rcases List.mem_append.mp hp with h1 | h1
            · exact hacc p h1
            · have hcond := (List.mem_filter.mp h1).2
              simp [tooOld] at hcond
              omega
          simpa using pull_statuses_loop_no_old api d fuel (some p0.id) _ hacc'

theorem pull_statuses_loop_requests (api : StatusesApi) (d : Int) :
    ∀ (fuel : Nat) (cursor : Option Nat) (acc : List Post),
      ∀ r ∈ ((pull_statuses_loop api (some d) fuel cursor acc).2).dropLast,
        pageNewestGE api d r = true
  | 0, cursor, acc => by simp [pull_statuses_loop]
  | fuel+1, cursor, acc => by
    cases hapi : api cursor with
    | error e =>
      rw [pull_statuses_loop_error fuel acc hapi]
      simp
    | ok result =>
      by_cases hres : result = []
      · subst hres
        rw [pull_statuses_loop_emptyPage fuel acc hapi]
        simp
      · have hsn : sortPosts result ≠ [] := fun h => hres (sortPosts_eq_nil_iff.mp h)
        obtain ⟨p0, t, hsl⟩ : ∃ p0 t, sortPosts result = p0 :: t := by
          cases hsl : sortPosts result with
          | nil => exact absurd hsl hsn
          | cons a t => exact ⟨a, t, rfl⟩
        have hh : (sortPosts result).head? = some p0 := by rw [hsl]; rfl
        obtain ⟨plast, hl⟩ : ∃ plast, (sortPosts result).getLast? = some plast := by
          rw [hsl]
          exact ⟨(p0 :: t).getLast (by simp), List.getLast?_eq_getLast _ (by simp)⟩
        rw [pull_statuses_loop_ok fuel acc hapi hh hl]
        split
        · simp
        · rename_i htoo
          cases hnext : (pull_statuses_loop api (some d) fuel (some p0.id)
              (acc ++ (sortPosts result).filter (fun p => !tooOld (some d) p))).2 with
          | nil => simp
          | cons x xs =>
            intro r hr
            have hr3 : r ∈ cursor :: (x :: xs).dropLast := hr
            rcases List.mem_cons.mp hr3 with rfl | hr'
            · simp [tooOld] at htoo
              simp [pageNewestGE, hapi, hl]
              omega
            · have := pull_statuses_loop_requests api d fuel (some p0.id)
                (acc ++ (sortPosts result).filter (fun p => !tooOld (some d) p)) r
                (by rw [hnext]; exact hr')
              exact this

theorem pull_statuses_loop_break (api : StatusesApi) (d : Int)
    (fuel : Nat) (cursor : Option Nat) (acc result : List Post) (plast : Post)
    (h : api cursor = .ok result) (hl : (sortPosts result).getLast? = some plast)
    (hold : plast.created < d) :
    pull_statuses_loop api (some d) (fuel + 1) cursor acc = (acc, [cursor]) := by
  have hsn : sortPosts result ≠ [] := by
    intro he
    rw [he] at hl
    simp at hl
  obtain ⟨p0, t, hsl⟩ : ∃ p0 t, sortPosts result = p0 :: t := by
    cases hsl : sortPosts result with
    | nil => exact absurd hsl hsn
    | cons a t => exact ⟨a, t, rfl⟩
  have hh : (sortPosts result).head? = some p0 := by rw [hsl]; rfl
  rw [pull_statuses_loop_ok fuel acc h hh hl, if_pos (by simpa [tooOld] using hold)]

/-- C2 (amended): with a cutoff date D, (1) the returned post list contains
no post dated strictly before D; (2) a further page is requested only when
the current page decoded, was non-empty and its maximum-id
(`most_recent_date`) post is dated at or after D — i.e. the walk stops as
soon as that newest post predates D, not when the oldest one does; (3) on
such a stopping page none of its posts (not even those dated at or after D)
is included. -/
theorem c2_created_after_cutoff (api : StatusesApi) (d : Int) (fuel : Nat) :
    (∀ p ∈ (pull_statuses api (some d) fuel).1, d ≤ p.created)
    ∧ (∀ r ∈ ((pull_statuses api (some d) fuel).2).dropLast,
        pageNewestGE api d r = true)
    ∧ (∀ (cursor : Option Nat) (acc result : List Post) (plast : Post),
        api cursor = .ok result → (sortPosts result).getLast? = some plast →
        plast.created < d →
        pull_statuses_loop api (some d) (fuel + 1) cursor acc = (acc, [cursor])) :=
  ⟨pull_statuses_loop_no_old api d fuel none [] (by simp),
   pull_statuses_loop_requests api d fuel none [],
   fun cursor acc result plast h hl hold =>
     pull_statuses_loop_break api d fuel cursor acc result plast h hl hold⟩

/-- C2 counterexample: with cutoff D = 3, the first page of `cex2Api`
contains a post dated 0 < 3 (its oldest post predates D), yet the paginator
does not stop there: it issues two further requests (cursors 10 then 5) and
returns a post from the second page, contradicting the claim that it "stops
requesting further pages as soon as the oldest post in the current page
predates D". -/
theorem c2_cutoff_claim_false :
    pull_statuses cex2Api (some 3) 10 =
      ([⟨11, 5⟩, ⟨5, 4⟩], [none, some 10, some 5])
    ∧ ([Post.mk 11 5, Post.mk 10 0].any fun p => decide (p.created < 3)) = true := by
  constructor
  · decide
  · decide

/-- C2 witness: the amended theorem applied to `cex2Api` — with cutoff 10 a
page whose newest post is dated 5 < 10 terminates the loop at once adding
nothing, and with cutoff 3 the post dated 5 kept in the output is indeed
dated at or after 3. -/
theorem c2_created_after_cutoff_witness :
    pull_statuses_loop cex2Api (some 10) 4 none [] = ([], [none])
    ∧ (3 : Int) ≤ (Post.mk 11 5).created :=
  ⟨(c2_created_after_cutoff cex2Api 10 3).2.2 none [] [⟨11, 5⟩, ⟨10, 0⟩] ⟨11, 5⟩
      rfl (by decide) (by decide),
   (c2_created_after_cutoff cex2Api 3 10).1 ⟨11, 5⟩ (by decide)⟩

end Gabber

namespace Gabber

/-! ## Ordering of the accumulated posts (claim C8) -/

theorem pull_statuses_loop_contrib (api : StatusesApi) (ca : Option Int) :
    ∀ (fuel : Nat) (cursor : Option Nat) (acc : List Post),
      (pull_statuses_loop api ca fuel cursor acc).1 =
        acc ++ (((pull_statuses_loop api ca fuel cursor acc).2).map
          (pageContrib api ca)).flatten
  | 0, cursor, acc => by simp [pull_statuses_loop]
  | fuel+1, cursor, acc => by
    cases hapi : api cursor with
    | error e =>
      rw [pull_statuses_loop_error fuel acc hapi]
      simp [pageContrib, hapi]
    | ok result =>
      by_cases hres : result = []
      · subst hres
        rw [pull_statuses_loop_emptyPage fuel acc hapi]
        simp [pageContrib, hapi]
      · have hsn : sortPosts result ≠ [] := fun h => hres (sortPosts_eq_nil_iff.mp h)
        obtain ⟨p0, t, hsl⟩ : ∃ p0 t, sortPosts result = p0 :: t := by
          cases hsl : sortPosts result with
          | nil => exact absurd hsl hsn
          | cons a t => exact ⟨a, t, rfl⟩
        have hh : (sortPosts result).head? = some p0 := by rw [hsl]; rfl
        obtain ⟨plast, hl⟩ : ∃ plast, (sortPosts result).getLast? = some plast := by
          rw [hsl]
          exact ⟨(p0 :: t).getLast (by simp), List.getLast?_eq_getLast _ (by simp)⟩
        have hie : result.isEmpty = false := by
          simpa [List.isEmpty_iff] using hres
        rw [pull_statuses_loop_ok fuel acc hapi hh hl]
        by_cases htoo : tooOld ca plast = true
        · rw [if_pos htoo]
          simp [pageContrib, hapi, hie, hl, htoo]
        · rw [if_neg htoo]
          have hco : pageContrib api ca cursor =
              (sortPosts result).filter (fun p => !tooOld ca p) := by
            simp [pageContrib, hapi, hie, hl, htoo]
          have ih := pull_statuses_loop_contrib api ca fuel (some p0.id)
            (acc ++ (sortPosts result).filter (fun p => !tooOld ca p))
          simp only [List.map_cons, List.flatten_cons, hco]
          rw [ih]
          simp [List.append_assoc]

/-- C8 (amended): the accumulated post list is, page by page in request
order, the page's kept posts sorted in ascending id order (oldest-id first
within each page) — not newest-first: the source re-sorts each
API-descending page ascending before appending. -/
theorem c8_page_order (api : StatusesApi) (ca : Option Int) (fuel : Nat) :
    (pull_statuses api ca fuel).1 =
      (((pull_statuses api ca fuel).2).map (pageContrib api ca)).flatten
    ∧ ∀ r, (pageContrib api ca r).Pairwise (fun a b : Post => a.id ≤ b.id) := by
  constructor
  · simpa using pull_statuses_loop_contrib api ca fuel none []
  · intro r
    unfold pageContrib
    cases api r with
    | error e => simp
    | ok result =>
      by_cases hres : result.isEmpty = true
      · simp [hres]
      · simp only [Bool.not_eq_true] at hres
        simp only [hres]
        cases hl : (sortPosts result).getLast? with
        | none => simp
        | some plast =>
          by_cases htoo : tooOld ca plast = true
          · simp [htoo]
          · simp only [htoo]
            simp only [Bool.false_eq_true, if_false]
            exact (sortPosts_sorted result).filter _

/-- C8 counterexample: `cex8Api` serves one page in descending (newest
first) id order `[2, 1]`, but the accumulated sequence comes out ascending
`[1, 2]` — the claim that the accumulated sequence is ordered newest-first
(descending id) is false. -/
theorem c8_newest_first_claim_false :
    (pull_statuses cex8Api none 10).1.map Post.id = [1, 2]
    ∧ ¬ ((pull_statuses cex8Api none 10).1.map Post.id).Pairwise
        (fun a b : Nat => b ≤ a) := by
  constructor
  · decide
  · decide

end Gabber

namespace Gabber

/-! ## The max_id cursor never refetches an id (claim C9) -/

theorem pull_statuses_loop_ids_lt (api : StatusesApi)
    (hapi : ∀ (c : Nat) (result : List Post),
      api (some c) = .ok result → ∀ p ∈ result, p.id < c)
    (ca : Option Int) :
    ∀ (fuel : Nat) (m : Nat) (acc : List Post),
      ∀ r ∈ (pull_statuses_loop api ca fuel (some m) acc).2,
        ∀ i ∈ pageIds api r, i < m
  | 0, m, acc => by simp [pull_statuses_loop]
  | fuel+1, m, acc => by
    have hcur : ∀ i ∈ pageIds api (some m), i < m := by
      intro i hi
      unfold pageIds at hi
      cases hm : api (some m) with
      | error e => rw [hm] at hi; simp at hi
      | ok result =>
        rw [hm] at hi
        simp only [List.mem_map] at hi
        obtain ⟨p, hp, rfl⟩ := hi
        exact hapi m result hm p hp
    cases hm : api (some m) with
    | error e =>
      rw [pull_statuses_loop_error fuel acc hm]
      intro r hr
      have : r = some m := by simpa using hr
      subst this
      exact hcur
    | ok result =>
      by_cases hres : result = []
      · subst hres
        rw [pull_statuses_loop_emptyPage fuel acc hm]
        intro r hr
        have : r = some m := by simpa using hr
        subst this
        exact hcur
      · have hsn : sortPosts result ≠ [] := fun h => hres (sortPosts_eq_nil_iff.mp h)
        obtain ⟨p0, t, hsl⟩ : ∃ p0 t, sortPosts result = p0 :: t := by
          cases hsl : sortPosts result with
          | nil => exact absurd hsl hsn
          | cons a t => exact ⟨a, t, rfl⟩
        have hh : (sortPosts result).head? = some p0 := by rw [hsl]; rfl
        obtain ⟨plast, hl⟩ : ∃ plast, (sortPosts result).getLast? = some plast := by
          rw [hsl]
          exact ⟨(p0 :: t).getLast (by simp), List.getLast?_eq_getLast _ (by simp)⟩
        have hp0m : p0.id < m := by
          have hp0 : p0 ∈ result := mem_sortPosts.mp (by rw [hsl]; simp)
          exact hapi m result hm p0 hp0
        rw [pull_statuses_loop_ok fuel acc hm hh hl]
        split
        · intro r hr
          have : r = some m := by simpa using hr
          subst this
          exact hcur
        · intro r hr
          have hr2 : r ∈ some m :: (pull_statuses_loop api ca fuel (some p0.id)
              (acc ++ (sortPosts result).filter (fun p => !tooOld ca p))).2 := hr
          rcases List.mem_cons.mp hr2 with rfl | hr'
          · exact hcur
          · intro i hi
            have := pull_statuses_loop_ids_lt api hapi ca fuel p0.id
              (acc ++ (sortPosts result).filter (fun p => !tooOld ca p)) r hr' i hi
            omega

theorem pull_statuses_loop_pages_lt (api : StatusesApi)
    (hapi : ∀ (c : Nat) (result : List Post),
      api (some c) = .ok result → ∀ p ∈ result, p.id < c)
    (ca : Option Int) :
    ∀ (fuel : Nat) (cursor : Option Nat) (acc : List Post),
      ((pull_statuses_loop api ca fuel cursor acc).2).Pairwise
        (fun r r' => ∀ i ∈ pageIds api r', ∀ j ∈ pageIds api r, i < j)
  | 0, cursor, acc => by simp [pull_statuses_loop]
  | fuel+1, cursor, acc => by
    cases hm : api cursor with
    | error e =>
      rw [pull_statuses_loop_error fuel acc hm]
      simp
    | ok result =>
      by_cases hres : result = []
      · subst hres
        rw [pull_statuses_loop_emptyPage fuel acc hm]
        simp
      · have hsn : sortPosts result ≠ [] := fun h => hres (sortPosts_eq_nil_iff.mp h)
        obtain ⟨p0, t, hsl⟩ : ∃ p0 t, sortPosts result = p0 :: t := by
          cases hsl : sortPosts result with
          | nil => exact absurd hsl hsn
          | cons a t => exact ⟨a, t, rfl⟩
        have hh : (sortPosts result).head? = some p0 := by rw [hsl]; rfl
        obtain ⟨plast, hl⟩ : ∃ plast, (sortPosts result).getLast? = some plast := by
          rw [hsl]
          exact ⟨(p0 :: t).getLast (by simp), List.getLast?_eq_getLast _ (by simp)⟩
        rw [pull_statuses_loop_ok fuel acc hm hh hl]
        split
        · simp
        · refine List.pairwise_cons.mpr ⟨?_, ?_⟩
          · intro r' hr' i hi j hj
            have hip : i < p0.id := pull_statuses_loop_ids_lt api hapi ca fuel p0.id
              (acc ++ (sortPosts result).filter (fun p => !tooOld ca p)) r' hr' i hi
            have hjq : p0.id ≤ j := by
              unfold pageIds at hj
              rw [hm] at hj
              simp only [List.mem_map] at hj
              obtain ⟨q, hq, rfl⟩ := hj
              exact sortPosts_head_min hh q hq
            omega
          · exact pull_statuses_loop_pages_lt api hapi ca fuel (some p0.id)
              (acc ++ (sortPosts result).filter (fun p => !tooOld ca p))

/-- C9: against an upstream that, for a given `max_id` cursor, serves only
posts with ids strictly below it, the pages fetched by the successive
requests of one `pull_statuses` walk are pairwise disjoint in post id — no
post id is ever fetched twice across pages. -/
theorem c9_cursor_never_refetches (api : StatusesApi) (ca : Option Int)
    (fuel : Nat)
    (hapi : ∀ (c : Nat) (result : List Post),
      api (some c) = .ok result → ∀ p ∈ result, p.id < c) :
    ((pull_statuses api ca fuel).2).Pairwise
      (fun r r' => ∀ i ∈ pageIds api r', i ∉ pageIds api r) := by
  have h := pull_statuses_loop_pages_lt api hapi ca fuel none []
  exact h.imp (fun hab i hi hij => absurd (hab i hi i hij) (lt_irrefl i))

/-- C9 witness: the cursor-disjointness theorem applied to the concrete
upstream `wit9Api`, whose pages honour the strictly-below-cursor contract. -/
theorem c9_cursor_never_refetches_witness :
    ((pull_statuses wit9Api none 10).2).Pairwise
      (fun r r' => ∀ i ∈ pageIds wit9Api r', i ∉ pageIds wit9Api r) := by
  refine c9_cursor_never_refetches wit9Api none 10 ?_
  intro c result h p hp
  by_cases hc : c = 5
  · subst hc
    simp [wit9Api] at h
    subst h
    simp at hp
    subst hp
    decide
  · simp [wit9Api, hc] at h
    subst h
    simp at hp

end Gabber

namespace Gabber

/-! ## Entity fetch is total and only adds the pull timestamp (claim C5) -/

theorem lookup_dictSet_self (k v : String) :
    ∀ l : Doc, List.lookup k (dictSet l k v) = some v
  | [] => by simp [dictSet]
  | (k', v') :: rest => by
    simp only [dictSet]
    split
    · simp [List.lookup]
    · rename_i hne
      have hne' : (k == k') = false := by
        simp only [beq_eq_false_iff_ne]
        intro he
        exact hne he.symm
      simp [List.lookup, hne', lookup_dictSet_self k v rest]

theorem lookup_dictSet_ne (k v q : String) (hq : q ≠ k) :
    ∀ l : Doc, List.lookup q (dictSet l k v) = List.lookup q l
  | [] => by simp [dictSet, List.lookup, beq_eq_false_iff_ne.mpr hq]
  | (k', v') :: rest => by
    simp only [dictSet]
    split
    · rename_i he
      subst he
      simp [List.lookup, beq_eq_false_iff_ne.mpr hq]
    · simp only [List.lookup]
      cases hqk : q == k' with
      | true => rfl
      | false => exact lookup_dictSet_ne k v q hq rest

/-- C5: for every id whose fetch raises (decode failure or any other
exception) and for every id the API reports as "Record not found",
`pull_user` and `pull_group` return `None` (and, being total functions into
`Option`, never raise); on success the result is the API record with the
`_pulled` field set to the capture timestamp and every other field
unchanged. -/
theorem c5_pull_entity_absent_or_stamped (apiU apiG : Nat → Except PullErr Doc)
    (now : String) (id : Nat) :
    (∀ e, apiU id = .error e → pull_user apiU now id = none)
    ∧ (∀ result, apiU id = .ok result →
        List.lookup "error" result = some "Record not found" →
        pull_user apiU now id = none)
    ∧ (∀ result, apiU id = .ok result →
        List.lookup "error" result ≠ some "Record not found" →
        pull_user apiU now id = some (dictSet result "_pulled" now)
        ∧ List.lookup "_pulled" (dictSet result "_pulled" now) = some now
        ∧ ∀ k, k ≠ "_pulled" →
            List.lookup k (dictSet result "_pulled" now) = List.lookup k result)
    ∧ (∀ e, apiG id = .error e → pull_group apiG now id = none)
    ∧ (∀ result, apiG id = .ok result →
        List.lookup "error" result = some "Record not found" →
        pull_group apiG now id = none)
    ∧ (∀ result, apiG id = .ok result →
        List.lookup "error" result ≠ some "Record not found" →
        pull_group apiG now id = some (dictSet result "_pulled" now)
        ∧ List.lookup "_pulled" (dictSet result "_pulled" now) = some now
        ∧ ∀ k, k ≠ "_pulled" →
            List.lookup k (dictSet result "_pulled" now) = List.lookup k result) := by
  refine ⟨?_, ?_, ?_, ?_, ?_, ?_⟩
  · intro e he
    simp [pull_user, he]
  · intro result hres hnf
    simp [pull_user, hres, hnf]
  · intro result hres hnf
    exact ⟨by simp [pull_user, hres, hnf],
      lookup_dictSet_self "_pulled" now result,
      fun k hk => lookup_dictSet_ne "_pulled" now k hk result⟩
  · intro e he
    simp [pull_group, he]
  · intro result hres hnf
    simp [pull_group, hres, hnf]
  · intro result hres hnf
    exact ⟨by simp [pull_group, hres, hnf],
      lookup_dictSet_self "_pulled" now result,
      fun k hk => lookup_dictSet_ne "_pulled" now k hk result⟩

/-- C5 witness: the theorem applied to the concrete accounts endpoint
`wit5Api`: a raising id and a "Record not found" id both yield `None`, and
an existing id yields the record with `_pulled` appended. -/
theorem c5_pull_entity_absent_or_stamped_witness :
    pull_user wit5Api "T0" 7 = none
    ∧ pull_user wit5Api "T0" 2 = none
    ∧ pull_user wit5Api "T0" 1 = some [("username", "alice"), ("_pulled", "T0")]
    ∧ pull_group wit5Api "T0" 7 = none :=
  ⟨(c5_pull_entity_absent_or_stamped wit5Api wit5Api "T0" 7).1 .misc rfl,
   (c5_pull_entity_absent_or_stamped wit5Api wit5Api "T0" 2).2.1
     [("error", "Record not found")] rfl (by decide),
   ((c5_pull_entity_absent_or_stamped wit5Api wit5Api "T0" 1).2.2.1
     [("username", "alice")] rfl (by decide)).1,
   (c5_pull_entity_absent_or_stamped wit5Api wit5Api "T0" 7).2.2.2.1 .misc rfl⟩

/-! ## Session refresh counter (claim C4) -/

/-- C4: starting from a zero counter, each of the first
`REQUESTS_PER_SESSION_REFRESH` non-exempt `_get` calls only increments the
counter (no refresh), the `REQUESTS_PER_SESSION_REFRESH + 1`-st call
triggers exactly one refresh and resets the counter to zero, and a call
with `skip_sess_refresh=True` (the login request) never changes the counter
nor triggers a refresh. -/
theorem c4_session_refresh_threshold :
    (∀ n, n ≤ REQUESTS_PER_SESSION_REFRESH → iterateGets n (0, 0) = (n, 0))
    ∧ iterateGets (REQUESTS_PER_SESSION_REFRESH + 1) (0, 0) = (0, 1)
    ∧ (∀ st, refreshStep true st = st) := by
  have hmain : ∀ n, n ≤ REQUESTS_PER_SESSION_REFRESH → iterateGets n (0, 0) = (n, 0) := by
    intro n
    induction n with
    | zero => intro _; rfl
    | succ m ih =>
      intro hle
      have hm : m ≤ REQUESTS_PER_SESSION_REFRESH := Nat.le_of_succ_le hle
      rw [iterateGets, ih hm, refreshStep]
      simp only [Bool.false_eq_true, if_false]
      rw [if_neg]
      simp only [REQUESTS_PER_SESSION_REFRESH] at hle ⊢
      omega
  refine ⟨hmain, ?_, fun st => rfl⟩
  rw [iterateGets, hmain REQUESTS_PER_SESSION_REFRESH (le_refl _), refreshStep]
  simp [REQUESTS_PER_SESSION_REFRESH]

/-- C4 witness: the theorem applied at the threshold: after 1000 calls the
counter reads 1000 with no refresh, after 1001 it reads 0 with one refresh,
and an exempt call leaves an arbitrary concrete state alone. -/
theorem c4_session_refresh_threshold_witness :
    iterateGets 1000 (0, 0) = (1000, 0)
    ∧ iterateGets 1001 (0, 0) = (0, 1)
    ∧ refreshStep true (7, 3) = (7, 3) :=
  ⟨c4_session_refresh_threshold.1 1000 (by decide),
   c4_session_refresh_threshold.2.1,
   c4_session_refresh_threshold.2.2 (7, 3)⟩

/-! ## Login without a CSRF token or a session cookie (claim C6) -/

/-- C6 (amended): a sign-in page lacking the CSRF meta tag makes
`get_sess_cookie` fail with an uncaught TypeError (subscripting `None`) —
not a dedicated auth error — though indeed without issuing any POST; a
login response that does carry the token but comes back without a
`_session_id` cookie raises `ValueError` (invalid credentials) after the
POST. -/
theorem c6_login_failures (env : LoginEnv) (page : SignInPage)
    (hpage : env.signInPage = .ok page) :
    (page.csrfMeta = none →
      get_sess_cookie env = (.typeErrorNoneSubscript, false))
    ∧ (∀ csrf, page.csrfMeta = some csrf → csrf ≠ "" →
        env.postResp = .ok none →
        get_sess_cookie env = (.valueErrorInvalidCreds, true)) := by
  constructor
  · intro hcs
    simp [get_sess_cookie, hpage, hcs]
  · intro csrf hcs hne hpost
    simp [get_sess_cookie, hpage, hcs, hne, hpost]

/-- C6 counterexample: on a concrete sign-in page with no CSRF meta tag the
call ends in the uncaught TypeError, which is not the credentials error —
the claim that it "fails with an auth error (not an unrelated exception)"
is false (only the "issues no POST" half survives). -/
theorem c6_auth_error_claim_false :
    get_sess_cookie cex6Env = (.typeErrorNoneSubscript, false)
    ∧ SessResult.typeErrorNoneSubscript ≠ SessResult.valueErrorInvalidCreds
    ∧ SessResult.typeErrorNoneSubscript ≠ SessResult.noneRes := by
  refine ⟨rfl, by decide, by decide⟩

/-- C6 witness: the amended theorem applied to the concrete environments:
the tag-less page yields the TypeError with no POST, and the cookie-less
login response yields the credentials ValueError after the POST. -/
theorem c6_login_failures_witness :
    get_sess_cookie cex6Env = (.typeErrorNoneSubscript, false)
    ∧ get_sess_cookie wit6Env = (.valueErrorInvalidCreds, true) :=
  ⟨(c6_login_failures cex6Env ⟨none⟩ rfl).1 rfl,
   (c6_login_failures wit6Env ⟨some "tok"⟩ rfl).2 "tok" rfl (by decide) rfl⟩

end Gabber

namespace Gabber

/-! ## Exponential probe and binary search (claims C3, C7, C10) -/

theorem grow_lt {u : Int} (h : 3 ≤ u) : u < grow u := by
  unfold grow
  rw [Int.fdiv_eq_ediv] <;> omega

theorem grow_le_two_mul {u K : Int} (h3 : 3 ≤ u) (hK : u ≤ K) :
    grow u ≤ 2 * K := by
  unfold grow
  rw [Int.fdiv_eq_ediv] <;> omega

theorem probeUpper_of_none {api : Int → Option GabUser} {u : Int}
    (h : api u = none) : ∀ pf, probeUpper api pf u = some u
  | 0 => by simp [probeUpper, h]
  | pf+1 => by simp [probeUpper, h]

theorem probe_correct (api : Int → Option GabUser) (K : Int)
    (hex : ∀ i : Int, (api i).isSome = true ↔ i ≤ K) :
    ∀ (pf : Nat) (u : Int), 3 ≤ u → u ≤ K → (K + 2 - u).toNat ≤ pf →
      ∃ U, probeUpper api pf u = some U ∧ K < U ∧ U ≤ 2 * K
  | 0, u, h3, hK, hf => by exfalso; omega
  | pf+1, u, h3, hK, hf => by
    have hsome : (api u).isSome = true := (hex u).mpr hK
    rw [probeUpper, if_pos hsome]
    by_cases hgK : grow u ≤ K
    · exact probe_correct api K hex pf (grow u)
        (by have := grow_lt h3; omega) hgK
        (by have := grow_lt h3; omega)
    · have hnone : api (grow u) = none := by
        have hns : ¬ (api (grow u)).isSome = true := fun hs => hgK ((hex _).mp hs)
        cases hg : api (grow u) with
        | none => rfl
        | some x => rw [hg] at hns; simp at hns
      rw [probeUpper_of_none hnone pf]
      exact ⟨grow u, rfl, by omega, grow_le_two_mul h3 hK⟩

theorem fdiv_two_bounds {l u : Int} (h : l ≤ u) :
    l ≤ (l + u).fdiv 2 ∧ (l + u).fdiv 2 ≤ u := by
  rw [Int.fdiv_eq_ediv] <;> omega

theorem bsearchLoop_exit {api : Int → Option GabUser} {sf : Nat}
    {l u : Int} {best : Option GabUser} (hlu : ¬ l ≤ u) :
    bsearchLoop api (sf + 1) l u best = some best := by
  simp [bsearchLoop, hlu]

theorem bsearchLoop_done {api : Int → Option GabUser} {l u : Int}
    {best : Option GabUser} (hlu : ¬ l ≤ u) :
    ∀ sf, bsearchLoop api sf l u best = some best
  | 0 => by simp [bsearchLoop, hlu]
  | sf+1 => by simp [bsearchLoop, hlu]

theorem bsearchLoop_step_some {api : Int → Option GabUser} {sf : Nat}
    {l u : Int} {best : Option GabUser} (hlu : l ≤ u)
    (hmu : (api ((l + u).fdiv 2)).isSome = true) :
    bsearchLoop api (sf + 1) l u best =
      bsearchLoop api sf ((l + u).fdiv 2 + 1) u (api ((l + u).fdiv 2)) := by
  simp [bsearchLoop, hlu, hmu]

theorem bsearchLoop_step_none {api : Int → Option GabUser} {sf : Nat}
    {l u : Int} {best : Option GabUser} (hlu : l ≤ u)
    (hmu : (api ((l + u).fdiv 2)).isSome = false) :
    bsearchLoop api (sf + 1) l u best =
      bsearchLoop api sf l ((l + u).fdiv 2 - 1) best := by
  simp [bsearchLoop, hlu, hmu]

theorem bsearch_correct (api : Int → Option GabUser) (K : Int)
    (hex : ∀ i : Int, (api i).isSome = true ↔ i ≤ K) :
    ∀ (sf : Nat) (l u : Int) (best : Option GabUser),
      (u + 1 - l).toNat ≤ sf → l ≤ K + 1 → K ≤ u →
      (l ≤ K → bsearchLoop api sf l u best = some (api K))
      ∧ (K < l → bsearchLoop api sf l u best = some best)
  | 0, l, u, best, hf, hlK, hKu => by
    have hlu : ¬ l ≤ u := by omega
    constructor
    · intro hlK2
      exfalso
      omega
    · intro _
      exact bsearchLoop_done hlu 0
  | sf+1, l, u, best, hf, hlK, hKu => by
    by_cases hlu : l ≤ u
    · have hm1 := (fdiv_two_bounds hlu).1
      have hm2 := (fdiv_two_bounds hlu).2
      cases hmu : (api ((l + u).fdiv 2)).isSome with
      | true =>
        rw [bsearchLoop_step_some hlu hmu]
        have hmK : (l + u).fdiv 2 ≤ K := (hex _).mp hmu
        have ih := bsearch_correct api K hex sf ((l + u).fdiv 2 + 1) u
          (api ((l + u).fdiv 2)) (by omega) (by omega) hKu
        constructor
        · intro _
          by_cases hmid : (l + u).fdiv 2 + 1 ≤ K
          · exact ih.1 hmid
          · have hKm : K = (l + u).fdiv 2 := by omega
            rw [ih.2 (by omega), hKm]
        · intro hKl
          exfalso
          omega
      | false =>
        rw [bsearchLoop_step_none hlu hmu]
        have hmK : K < (l + u).fdiv 2 := by
          by_contra hc
          have h2 := (hex ((l + u).fdiv 2)).mpr (by omega)
          rw [hmu] at h2
          exact Bool.false_ne_true h2
        exact bsearch_correct api K hex sf l ((l + u).fdiv 2 - 1) best
          (by omega) hlK (by omega)
    · constructor
      · intro hlK2
        exfalso
        omega
      · intro _
        exact bsearchLoop_exit hlu

/-- C3 (amended): against an upstream where a user exists exactly for the
ids at most K, the exponential probe followed by the binary search ends
with the user whose id is exactly K — for every initial lower bound L with
3 ≤ L ≤ K (and enough fuel for the two loops).  The restriction 3 ≤ L is
forced: for L ≤ 2 the probe update `round(upper * 1.2)` fixes `upper` in
place and the probe never terminates (see the counterexample). -/
theorem c3_find_latest_search (api : Int → Option GabUser) (K L : Int)
    (pf sf : Nat)
    (hwf : ∀ (i : Int) (u : GabUser), api i = some u → u.id = i)
    (hex : ∀ i : Int, (api i).isSome = true ↔ i ≤ K)
    (hL3 : 3 ≤ L) (hLK : L ≤ K)
    (hpf : (K + 2 - L).toNat ≤ pf) (hsf : (2 * K + 1 - L).toNat ≤ sf) :
    ∃ u, search_phase api pf sf L = some (some u) ∧ u.id = K ∧ api K = some u := by
  obtain ⟨U, hU, hKU, hU2K⟩ := probe_correct api K hex pf L hL3 hLK hpf
  have hb := (bsearch_correct api K hex sf L U none (by omega) (by omega)
    (by omega)).1 hLK
  have hKsome : (api K).isSome = true := (hex K).mpr (le_refl K)
  obtain ⟨u, hu⟩ := Option.isSome_iff_exists.mp hKsome
  refine ⟨u, ?_, hwf K u hu, hu⟩
  unfold search_phase
  rw [hU]
  show bsearchLoop api sf L U none = some (some u)
  rw [hb, hu]

/-- Helper for the C3 counterexample: from a lower bound of 2 the probe is
stuck for every amount of fuel, because `round(2 * 1.2) = 2`. -/
theorem probe_stalls_from_two : ∀ pf, probeUpper (stairApi 2) pf 2 = none
  | 0 => by decide
  | pf+1 => by
    have hg : grow 2 = 2 := by decide
    rw [probeUpper, if_pos (by decide), hg]
    exact probe_stalls_from_two pf

/-- C3 counterexample: with K = 2 and the initial lower bound L = 2 ≤ K the
claim fails: `round(2 * 1.2) = 2`, so the exponential probe re-probes id 2
forever and the search never returns the user with id K (whatever the
fuel; shown here at fuel 400, with the one-step stall making the loop's
state repeat). -/
theorem c3_small_lower_bound_claim_false :
    grow 2 = 2
    ∧ probeUpper (stairApi 2) 400 2 = none
    ∧ search_phase (stairApi 2) 400 400 2 = none := by
  refine ⟨by decide, probe_stalls_from_two 400, ?_⟩
  unfold search_phase
  rw [probe_stalls_from_two 400]

/-- C3 witness: the amended theorem applied to the concrete staircase
upstream with K = 5 and lower bound 3. -/
theorem c3_find_latest_search_witness :
    ∃ u, search_phase (stairApi 5) 4 8 3 = some (some u) ∧ u.id = 5
      ∧ stairApi 5 5 = some u := by
  refine c3_find_latest_search (stairApi 5) 5 3 4 8 ?_ ?_ (by decide) (by decide)
    (by decide) (by decide)
  · intro i u h
    unfold stairApi at h
    by_cases hi : i ≤ 5
    · rw [if_pos hi] at h
      have h2 : GabUser.mk i 0 = u := by injection h
      rw [← h2]
    · rw [if_neg hi] at h
      exact Option.noConfusion h
  · intro i
    unfold stairApi
    by_cases hi : i ≤ 5
    · simp [hi]
    · simp [hi]

/-- C7: whenever the search phase records a user, `find_latest_user` raises
the staleness RuntimeError exactly when that user's age — now minus its
creation timestamp — exceeds thirty minutes, and otherwise returns exactly
that user. -/
theorem c7_staleness_iff (api : Int → Option GabUser) (pf sf : Nat)
    (L now : Int) (u : GabUser)
    (hsearch : search_phase api pf sf L = some (some u)) :
    (find_latest_user api pf sf L now = .error .staleness ↔
      THIRTY_MINUTES < now - u.created_at)
    ∧ (now - u.created_at ≤ THIRTY_MINUTES →
        find_latest_user api pf sf L now = .ok u) := by
  have hred : find_latest_user api pf sf L now =
      if THIRTY_MINUTES < now - u.created_at then Except.error FindErr.staleness
      else Except.ok u := by
    unfold find_latest_user
    rw [hsearch]
  rw [hred]
  constructor
  · constructor
    · intro h
      by_contra hc
      rw [if_neg hc] at h
      exact Except.noConfusion h
    · intro h
      rw [if_pos h]
  · intro h
    rw [if_neg (by omega)]

/-- C7 witness: the staircase upstream with K = 5, queried 100 seconds
after creation time: the found user is fresh, so the call returns it and
does not raise the staleness error. -/
theorem c7_staleness_iff_witness :
    find_latest_user (stairApi 5) 5 5 3 100 = .ok ⟨5, 0⟩
    ∧ ¬ (find_latest_user (stairApi 5) 5 5 3 100 = Except.error FindErr.staleness) := by
  have h := c7_staleness_iff (stairApi 5) 5 5 3 100 ⟨5, 0⟩ (by decide)
  exact ⟨h.2 (by decide), fun hc => absurd (h.1.mp hc) (by decide)⟩

/-- C10: when no user exists at or above the hardcoded initial lower bound
5318531, the probe immediately fixes the search range to the single id
5318531, the binary search ends with the `user` variable still `None`, and
`find_latest_user` fails with the uncaught TypeError from subscripting
`None` — not a return value or a dedicated error. -/
theorem c10_none_above_start_typeerror (api : Int → Option GabUser)
    (now : Int) (pf sf : Nat)
    (hnone : ∀ i : Int, 5318531 ≤ i → api i = none) :
    find_latest_user_main api pf (sf + 1) now = .error .typeErrorNoneSubscript := by
  have h0 : api 5318531 = none := hnone _ (le_refl _)
  have hmid : api ((5318531 + 5318531 : Int).fdiv 2) = none := by
    rw [show ((5318531 + 5318531 : Int).fdiv 2) = 5318531 by decide]
    exact h0
  have hbs : bsearchLoop api (sf + 1) 5318531 5318531 none = some none := by
    rw [bsearchLoop_step_none (by decide) (by simp [h0, hmid]),
      bsearchLoop_done (by decide) sf]
  unfold find_latest_user_main find_latest_user search_phase
  simp only [probeUpper_of_none h0 pf, hbs]

/-- C10 witness: the theorem applied to the empty upstream. -/
theorem c10_none_above_start_typeerror_witness :
    find_latest_user_main noneApi 3 4 0 = .error .typeErrorNoneSubscript :=
  c10_none_above_start_typeerror noneApi 0 3 3 (fun _ _ => rfl)

end Gabber

namespace Gabber

/-! ## The range walks (claim C1) -/

theorem splitDone_perm (mask : Nat → Bool) (l : List Nat) :
    ((splitDone mask l).1 ++ (splitDone mask l).2).Perm l := by
  unfold splitDone
  dsimp only
  split
  · rw [List.take_append_drop]
  · have h1 : ((l.enum.filter (fun p => mask p.1)).map Prod.snd) ++
        ((l.enum.filter (fun p => !mask p.1)).map Prod.snd)
        = ((l.enum.filter (fun p => mask p.1)) ++
            (l.enum.filter (fun p => !mask p.1))).map Prod.snd :=
      (List.map_append _ _ _).symm
    rw [h1]
    have h2 := (List.filter_append_perm (fun p => mask p.1) l.enum).map Prod.snd
    rw [List.enum_map_snd l] at h2
    exact h2

theorem splitDone_fst_ne_nil (mask : Nat → Bool) (l : List Nat) (h : l ≠ []) :
    (splitDone mask l).1 ≠ [] := by
  unfold splitDone
  dsimp only
  split
  · intro hc
    rcases List.take_eq_nil_iff.mp hc with h1 | h1
    · exact absurd h1 (by decide)
    · exact absurd h1 h
  · rename_i hne
    simpa [List.isEmpty_iff] using hne

theorem splitDone_length (mask : Nat → Bool) (l : List Nat) :
    (splitDone mask l).1.length + (splitDone mask l).2.length = l.length := by
  have := (splitDone_perm mask l).length_eq
  simpa [List.length_append] using this

theorem walkLoop_complete (sched : Nat → Nat → Bool) :
    ∀ (fuel step : Nat) (s : WalkState),
      s.pending.length + s.inflight.length ≤ fuel →
      (s.inflight = [] → s.pending = []) →
      (walkLoop sched fuel step s).inflight = []
      ∧ (walkLoop sched fuel step s).pending = []
      ∧ ((walkLoop sched fuel step s).completed).Perm
          (s.completed ++ s.inflight ++ s.pending)
  | 0, step, s, hf, hip => by
    have hinf : s.inflight = [] := List.length_eq_zero.mp (by omega)
    have hpen : s.pending = [] := List.length_eq_zero.mp (by omega)
    rw [walkLoop]
    exact ⟨hinf, hpen, by simp [hinf, hpen]⟩
  | fuel+1, step, s, hf, hip => by
    by_cases hie : s.inflight.isEmpty = true
    · have hinf : s.inflight = [] := by simpa [List.isEmpty_iff] using hie
      have hpen : s.pending = [] := hip hinf
      rw [walkLoop, if_pos hie]
      exact ⟨hinf, hpen, by simp [hinf, hpen]⟩
    · have hinf : s.inflight ≠ [] := by simpa [List.isEmpty_iff] using hie
      have hsp := splitDone_perm (sched step) s.inflight
      have hne := splitDone_fst_ne_nil (sched step) s.inflight hinf
      have hlen := splitDone_length (sched step) s.inflight
      rw [walkLoop, if_neg hie]
      dsimp only
      have hd1 : 1 ≤ (splitDone (sched step) s.inflight).1.length := by
        cases hdc : (splitDone (sched step) s.inflight).1 with
        | nil => exact absurd hdc hne
        | cons a t => simp
      have ih := walkLoop_complete sched fuel (step + 1)
        { pending := s.pending.drop (splitDone (sched step) s.inflight).1.length
          inflight := (splitDone (sched step) s.inflight).2 ++
            s.pending.take (splitDone (sched step) s.inflight).1.length
          completed := s.completed ++ (splitDone (sched step) s.inflight).1 }
        (by
          dsimp only
          rw [List.length_drop, List.length_append, List.length_take]
          omega)
        (by
          dsimp only
          intro h
          rcases List.append_eq_nil.mp h with ⟨h2, h3⟩
          rcases List.take_eq_nil_iff.mp h3 with h4 | h4
          · omega
          · rw [h4, List.drop_nil])
      refine ⟨ih.1, ih.2.1, ?_⟩
      refine ih.2.2.trans ?_
      have heq : (s.completed ++ (splitDone (sched step) s.inflight).1) ++
            ((splitDone (sched step) s.inflight).2 ++
              s.pending.take (splitDone (sched step) s.inflight).1.length) ++
            s.pending.drop (splitDone (sched step) s.inflight).1.length
          = s.completed ++ (((splitDone (sched step) s.inflight).1 ++
              (splitDone (sched step) s.inflight).2) ++ s.pending) := by
        simp only [List.append_assoc, List.take_append_drop]
      rw [heq]
      have hstep := List.Perm.append_left s.completed (hsp.append_right s.pending)
      refine hstep.trans ?_
      rw [List.append_assoc]

theorem idRange_length (first last : Nat) :
    (idRange first last).length = last + 1 - first := by
  simp [idRange]

theorem idRange_nodup (first last : Nat) : (idRange first last).Nodup :=
  (List.nodup_range _).map (fun x y h => by omega)

/-- The users walk of the `posts` command processes every id of the range
exactly once and completes them all: with at least one worker thread and
enough fuel, whatever the completion schedule, the completed ids are a
permutation of `range(first, last + 1)` (hence pairwise distinct, with as
many task results as the range has ids) and nothing is left pending or in
flight. -/
theorem posts_walk_covers_range (threads first last : Nat)
    (sched : Nat → Nat → Bool) (fuel : Nat)
    (hthreads : 1 ≤ threads) (hfuel : last + 1 - first ≤ fuel) :
    ((posts_walk threads first last sched fuel).completed).Perm (idRange first last)
    ∧ (posts_walk threads first last sched fuel).completed.Nodup
    ∧ (posts_walk threads first last sched fuel).completed.length = last + 1 - first
    ∧ (posts_walk threads first last sched fuel).inflight = []
    ∧ (posts_walk threads first last sched fuel).pending = [] := by
  have h := walkLoop_complete sched fuel 0
    { pending := (idRange first last).drop (threads * 2)
      inflight := (idRange first last).take (threads * 2)
      completed := [] }
    (by
      dsimp only
      rw [List.length_drop, List.length_take]
      have := idRange_length first last
      omega)
    (by
      dsimp only
      intro hc
      rcases List.take_eq_nil_iff.mp hc with h1 | h1
      · omega
      · rw [h1, List.drop_nil])
  have hperm : ((posts_walk threads first last sched fuel).completed).Perm
      (idRange first last) := by
    refine (h.2.2).trans ?_
    simp [List.take_append_drop]
  refine ⟨hperm, (hperm.symm).nodup (idRange_nodup first last), ?_, h.1, h.2.1⟩
  rw [hperm.length_eq, idRange_length]

/-- C1 evaluated at explicit inputs (range `[0, 5]`, one thread, every
in-flight task completing at each wait): the users walk completes exactly
the six ids of the range, but the groups walk aborts with the
AttributeError raised by `futures.append` (the `concurrent.futures` module
has no `append`; the local list is `f`) right after its first completion
wave, leaving only ids 0 and 1 completed and ids 2..5 never submitted —
the range-coverage claim fails for the groups walk. -/
theorem c1_groups_walk_futures_append_bug :
    idRange 0 5 = [0, 1, 2, 3, 4, 5]
    ∧ (posts_walk 1 0 5 (fun _ _ => true) 6).completed = [0, 1, 2, 3, 4, 5]
    ∧ (groups_walk 1 0 5 (fun _ _ => true)).1 =
        some "AttributeError: futures module has no append"
    ∧ (groups_walk 1 0 5 (fun _ _ => true)).2.completed = [0, 1]
    ∧ (groups_walk 1 0 5 (fun _ _ => true)).2.completed ≠ idRange 0 5 := by
  refine ⟨by decide, by decide, rfl, by decide, by decide⟩

end Gabber
